import Mathlib

/-!
Shallow embedding of the core logic of `src/Calorie_Recipe_App.py` (FitChef):
the hydration ledger (logical-day rollover, streak, daily and segment totals),
the shopping list (estimated cart value, AI price/category merge, recipe
ingredient extraction) and the per-user persistence merge.  Each definition is
translated from the Python source; line numbers in doc comments refer to
`src/Calorie_Recipe_App.py`.
-/

namespace FitChef

/-- Model of a parsed Python `datetime`: a calendar day (as a day index, so
that subtracting one day is `day - 1`), the clock hour and the minute.
`datetime.strptime` with format `%Y-%m-%d %H:%M` only accepts hours 0..23;
theorems that need that bound take it as a hypothesis. -/
structure DT where
  day : Int
  hour : Nat
  minute : Nat
deriving DecidableEq

/-- Model of the value found in a log entry's `amount` field.  In the source
this is whatever JSON held: a number (`num`), a string that `float()` accepts
(`numStr`), or garbage that `float()` rejects (`bad`).  Python `sum` can add
only actual numbers; `safe_float` also accepts numeric strings and turns
everything else into `0.0`. -/
inductive Amt where
  | num (q : ℚ)
  | numStr (q : ℚ)
  | bad
deriving DecidableEq

/-- Source lines 94-98, `safe_float`: `float(val)` with a bare `except`
returning `0.0`. -/
def safe_float : Amt → ℚ
  | Amt.num q => q
  | Amt.numStr q => q
  | Amt.bad => 0

/-- Whether Python `0 + amount` succeeds, i.e. the amount is an actual number
(ints/floats; adding a string to an int raises `TypeError`). -/
def isNum : Amt → Bool
  | Amt.num _ => true
  | _ => false

/-- Model of one element of `hydration['logs']`.  The source stores the
`date` and `time` strings and re-parses them with
`datetime.strptime(f"{l['date']} {l['time']}", "%Y-%m-%d %H:%M")` at every
use, always inside `try/except`; we abstract that parse into `dt`:
`some t` when `strptime` succeeds with result `t`, `none` when it raises. -/
structure LogEntry where
  dt : Option DT
  amount : Amt
deriving DecidableEq

/-- Source lines 117-124, `get_effective_date`: if the log hour is before the
user's start hour the entry counts as the previous calendar day, otherwise as
its own calendar day.  We return the day index (the source returns the
`%Y-%m-%d` string of that day). -/
def get_effective_date (t : DT) (start_hour : Nat) : Int :=
  if t.hour < start_hour then t.day - 1 else t.day

/-- Source lines 130-139 (and the identical dashboard loop, lines 463-469):
the per-effective-day total of `safe_float` amounts over entries whose
`strptime` parse succeeds; entries whose parse raises are skipped by the
`except: continue`. -/
def dailyTotal (logs : List LogEntry) (start_hour : Nat) (d : Int) : ℚ :=
  (logs.filterMap fun l =>
      l.dt.map fun t => (get_effective_date t start_hour, safe_float l.amount)).foldl
    (fun acc p => if p.1 = d then acc + p.2 else acc) 0

/-- Source lines 156-162, the `while True` walk: starting at day `d`, count
consecutive days whose total meets the goal, stepping backward one day at a
time, stopping at the first day that fails.  The source loop is unbounded; it
terminates whenever `0 < goal`, because each counted day needs at least one
parsed entry of its own, so at most `logs.length` days can succeed before a
day fails.  `fuel` is any bound on that count plus one; `calculate_streak`
passes `logs.length + 1`, which the argument above shows is never exhausted
when `0 < goal`. -/
def walkBack (tot : Int → ℚ) (goal : ℚ) : Nat → Int → Nat
  | 0, _ => 0
  | fuel + 1, d => if goal ≤ tot d then 1 + walkBack tot goal fuel (d - 1) else 0

/-- Source lines 126-163, `calculate_streak`: empty log gives 0; otherwise
group amounts by effective date, add 1 if the current effective day already
meets the goal, then walk backward from yesterday counting consecutive days
that meet it.  `now` stands for the source's `datetime.now()`. -/
def calculate_streak (logs : List LogEntry) (goal : ℚ) (start_hour : Nat)
    (now : DT) : Nat :=
  if logs.isEmpty then 0
  else
    let eff_today := get_effective_date now start_hour
    let base := if goal ≤ dailyTotal logs start_hour eff_today then 1 else 0
    base + walkBack (dailyTotal logs start_hour) goal (logs.length + 1) (eff_today - 1)

/-- Source lines 459-469, the dashboard total for the current effective day. -/
def totalToday (logs : List LogEntry) (start_hour : Nat) (now : DT) : ℚ :=
  dailyTotal logs start_hour (get_effective_date now start_hour)

/-- Source lines 530-536: the entries of the current hydration cycle — those
whose `strptime` parse succeeds and whose effective date equals the current
effective date; entries that fail to parse are skipped by the `except`. -/
def currentCycleLogs (logs : List LogEntry) (start_hour : Nat) (now : DT) :
    List LogEntry :=
  logs.filter fun l =>
    match l.dt with
    | some t => get_effective_date t start_hour = get_effective_date now start_hour
    | none => false

/-- Python `sum` over raw `amount` values (source lines 539-541 use
`l['amount']`, not `safe_float`): succeeds with the numeric sum when every
amount is an actual number, raises `TypeError` (modelled as `none`) as soon
as a non-number is added. -/
def pySum (amts : List Amt) : Option ℚ :=
  amts.foldl
    (fun acc a =>
      match acc, a with
      | some s, Amt.num q => some (s + q)
      | _, _ => none)
    (some 0)

/-- Clock hour of a cycle entry; inside `currentCycleLogs` the parse succeeded,
so `dt` is `some` and the hour is the one from the entry's `time` string
(the source re-reads it via `int(l['time'].split(':')[0])`). -/
def entryHour (l : LogEntry) : Nat :=
  match l.dt with
  | some t => t.hour
  | none => 0

/-- Source line 539: morning segment, clock hour `< 12`. -/
def mornSum (logs : List LogEntry) (start_hour : Nat) (now : DT) : Option ℚ :=
  pySum (((currentCycleLogs logs start_hour now).filter
    fun l => entryHour l < 12).map LogEntry.amount)

/-- Source line 540: afternoon segment, clock hour in `[12, 17)`. -/
def aftSum (logs : List LogEntry) (start_hour : Nat) (now : DT) : Option ℚ :=
  pySum (((currentCycleLogs logs start_hour now).filter
    fun l => 12 ≤ entryHour l ∧ entryHour l < 17).map LogEntry.amount)

/-- Source line 541: evening segment, clock hour `≥ 17` (no upper bound in the
code; `strptime` caps hours at 23). -/
def eveSum (logs : List LogEntry) (start_hour : Nat) (now : DT) : Option ℚ :=
  pySum (((currentCycleLogs logs start_hour now).filter
    fun l => 17 ≤ entryHour l).map LogEntry.amount)

/-- Model of one element of the shopping list (source lines 604-610, 724-726,
and the §6 record shape): `item`, `qty`, `category` strings, the two price
bounds and the bought flag.  Prices are kept as rationals; where the source
applies `safe_float` to a numeric price it is the identity. -/
structure Item where
  item : String
  qty : String
  category : String
  price_min : ℚ
  price_max : ℚ
  bought : Bool
deriving DecidableEq

/-- Source lines 584-588, `est_total`:
`sum((safe_float(price_min) + safe_float(price_max)) / 2 for unbought items)`.
The quantity string is not read here. -/
def est_total (shop_list : List Item) : ℚ :=
  ((shop_list.filter fun x => !x.bought).map
    fun x => (x.price_min + x.price_max) / 2).sum

/-- Value of a digit list read in base 10. -/
def digitsVal (ds : List Char) : Nat :=
  ds.foldl (fun acc c => 10 * acc + c.toNat - 48) 0

/-- Leftmost match of the regex `(\d+(\.\d+)?)` over a character list:
find the first digit, take the maximal digit run, then an optional `.` plus
at least one digit.  Returns `none` when the string holds no digit. -/
def findNum : List Char → Option ℚ
  | [] => none
  | c :: rest =>
    if c.isDigit then
      let ds := (c :: rest).takeWhile Char.isDigit
      let after := (c :: rest).dropWhile Char.isDigit
      let intPart : ℚ := (digitsVal ds : ℚ)
      match after with
      | '.' :: r2 =>
        let fs := r2.takeWhile Char.isDigit
        if fs.isEmpty then some intPart
        else some (intPart + (digitsVal fs : ℚ) / ((10 : ℚ) ^ fs.length))
      | _ => some intPart
    else findNum rest

/-- Source lines 84-92, `safe_parse_qty`: `re.search(r"(\d+(\.\d+)?)", s)`,
returning the matched number, defaulting to `1.0` when there is no match. -/
def safe_parse_qty (s : String) : ℚ :=
  (findNum s.toList).getD 1

/-- Model of one AI price suggestion (source line 647 JSON shape):
`item`, `category`, `price_min`, `price_max`. -/
structure Sugg where
  item : String
  category : String
  price_min : ℚ
  price_max : ℚ
deriving DecidableEq

/-- Whether `needle` is a prefix of `hay` (character lists). -/
def leadEq : List Char → List Char → Bool
  | [], _ => true
  | _ :: _, [] => false
  | a :: as, b :: bs => a == b && leadEq as bs

/-- Whether `needle` occurs contiguously inside `hay`; Python `needle in hay`
on strings. -/
def subAux (needle : List Char) : List Char → Bool
  | [] => needle.isEmpty
  | c :: t => leadEq needle (c :: t) || subAux needle t

/-- Python `needle in hay` (substring containment). -/
def strHasSub (needle hay : String) : Bool :=
  subAux needle.toList hay.toList

/-- Python `s.lower()` (ASCII case folding, which is all the app's item names
use). -/
def lowerStr (s : String) : String :=
  String.mk (s.toList.map Char.toLower)

/-- Source line 656, the merge match condition:
`x['item'].lower() in u['item'].lower()`. -/
def matchB (x : Item) (u : Sugg) : Bool :=
  strHasSub (lowerStr x.item) (lowerStr u.item)

/-- Source lines 657-659: overwrite the item's category and prices with the
suggestion's. -/
def overwrite (x : Item) (u : Sugg) : Item :=
  { x with category := u.category, price_min := u.price_min,
           price_max := u.price_max }

/-- What the inner loop body (source lines 655-660) does to one item for one
suggestion: overwrite its category and prices when the names match,
otherwise leave it alone. -/
def applySugg (x : Item) (u : Sugg) : Item :=
  if matchB x u then overwrite x u else x

/-- One iteration of the outer loop (source lines 654-660) for a single
suggestion `u`: every matching item of the current list is overwritten, and
`count` grows by the number of matches.  Item names are never rewritten, so
checking the match before or after the in-place update is equivalent. -/
def mergeStep (state : List Item × Nat) (u : Sugg) : List Item × Nat :=
  (state.1.map fun x => applySugg x u,
   state.2 + (state.1.filter fun x => matchB x u).length)

/-- Source lines 653-660, the Analyze & Price merge: the nested
`for u in updates: for x in shop_list:` loop, returning the updated list and
the final `count`. -/
def mergeSuggestions (shop_list : List Item) (updates : List Sugg) :
    List Item × Nat :=
  updates.foldl mergeStep (shop_list, 0)

/-- Python `clean_line.lstrip("*- ")`: drop every leading `*`, `-` or space. -/
def stripBullet (s : String) : String :=
  String.mk (s.toList.dropWhile fun c => c == '*' || c == '-' || c == ' ')

/-- Python `s.strip()`: drop leading and trailing whitespace. -/
def pyStrip (s : String) : String :=
  String.mk
    (((s.toList.dropWhile Char.isWhitespace).reverse.dropWhile
      Char.isWhitespace).reverse)

/-- Python `s.startswith(p)` for the one-character prefixes used here. -/
def startsB (p s : String) : Bool :=
  leadEq p.toList s.toList

/-- Splitting a character list at every newline, as Python
`text.split('\n')` does. -/
def splitNlAux (acc : List Char) : List Char → List (List Char)
  | [] => [acc.reverse]
  | c :: rest =>
    if c = '\n' then acc.reverse :: splitNlAux [] rest
    else splitNlAux (c :: acc) rest

/-- Python `text.split('\n')`. -/
def pySplitNl (s : String) : List String :=
  (splitNlAux [] s.toList).map String.mk

/-- Source lines 705-727, the Add to Shopping List scan, one line at a time
with the `capture` flag: a line containing `## Ingredients` switches capture
on and is itself skipped; once capturing, a line containing `##` ends the
scan (`break`); other captured lines contribute an ingredient name exactly
when, after `strip()`, they start with `*` or `-`; the name is the line with
leading `*`/`-`/space characters removed and surrounding whitespace stripped,
and empty names are discarded. -/
def scanLines : List String → Bool → List String
  | [], _ => []
  | line :: rest, capture =>
    if strHasSub "## Ingredients" line then scanLines rest true
    else if strHasSub "##" line && capture then []
    else if capture then
      let clean := pyStrip line
      if startsB "*" clean || startsB "-" clean then
        let raw := pyStrip (stripBullet clean)
        if raw = "" then scanLines rest capture
        else raw :: scanLines rest capture
      else scanLines rest capture
    else scanLines rest capture

/-- Source lines 703-734: the ingredient names extracted from a recipe
markdown text (the source appends each name as a fresh shopping item; we
return the list of names). -/
def extractIngredients (recipe : String) : List String :=
  scanLines (pySplitNl recipe) false

/-- One row of the `Hydration` or `Cheats` worksheet (source lines 256-263):
a username and the JSON blob of that user's record. -/
structure KVRow where
  username : String
  config_json : String
deriving DecidableEq

/-- Source lines 251-264 (key `hydration`) and 266-278 (key `cheats`) of
`save_data_to_cloud`: keep every row whose username differs from the saver,
in order, then append the saver's single new row. -/
def saveConfigRows (table : List KVRow) (username : String)
    (config_json : String) : List KVRow :=
  (table.filter fun r => r.username != username) ++ [⟨username, config_json⟩]

/-- One row of the `Shopping` worksheet (source line 305 header). -/
structure ShopRow where
  username : String
  item : String
  qty : String
  category : String
  price_min : ℚ
  price_max : ℚ
  bought : Bool
deriving DecidableEq

/-- Source lines 280-306 of `save_data_to_cloud`, key `shopping`: keep every
row of another username, in order, then append one row per item of the
saver's new list (page 287-295 builds `my_rows` by tagging each item with the
saver's username; `safe_float` on the numeric prices is the identity). -/
def saveShopping (table : List ShopRow) (username : String)
    (new_data : List Item) : List ShopRow :=
  (table.filter fun r => r.username != username) ++
    new_data.map fun x =>
      ⟨username, x.item, x.qty, x.category, x.price_min, x.price_max, x.bought⟩

/-- Modelled from the source, lines 560-564: the dict appended by the Quick
Log handler reads the module-level name `today_str`.  No statement in
`src/Calorie_Recipe_App.py` ever assigns `today_str`, so the lookup raises
`NameError`; the undefined global is modelled as `none`. -/
def today_str : Option String := none

/-- A raw log dict as the Quick Log handler would append it (source lines
560-564): the stored `date` and `time` strings and the numeric amount. -/
structure RawLog where
  date : String
  time : String
  amount : ℚ
deriving DecidableEq

/-- Two-digit zero-padded decimal, as `%H` / `%M` render one field. -/
def pad2 (n : Nat) : String :=
  if n < 10 then "0" ++ toString n else toString n

/-- Python `now.strftime("%H:%M")`. -/
def fmtTime (t : DT) : String :=
  pad2 t.hour ++ ":" ++ pad2 t.minute

/-- Source lines 552-564, the `+{val}ml` Quick Log chip handler restricted to
its effect on `h_data['logs']`: evaluating the appended dict requires the
value of `today_str`; if that name is undefined the handler raises before
appending (and before `save_data_to_cloud`), otherwise it appends exactly one
entry with that date, the formatted current time, and the chip amount. -/
def quickLogHandler (logs : List RawLog) (val : ℚ) (now : DT) :
    Except String (List RawLog) :=
  match today_str with
  | none => Except.error "NameError: today_str is not defined"
  | some d => Except.ok (logs ++ [⟨d, fmtTime now, val⟩])

/-- Plain sum of `safe_float` amounts of a list of entries; used to state
what the segment sums amount to on well-formed data. -/
def sfSum (L : List LogEntry) : ℚ :=
  (L.map fun l => safe_float l.amount).sum

/-- How many of the three time-of-day buckets of the claim — morning
`[0,12)`, afternoon `[12,17)`, evening `[17,24)` — contain a given clock
hour. -/
def bucketCount (h : Nat) : Nat :=
  (if h < 12 then 1 else 0) + (if 12 ≤ h ∧ h < 17 then 1 else 0) +
    (if 17 ≤ h ∧ h < 24 then 1 else 0)

/-- A well-formed log entry: timestamp parses and the amount is numeric. -/
def mkLog (d : Int) (h m : Nat) (amt : ℚ) : LogEntry :=
  ⟨some ⟨d, h, m⟩, Amt.num amt⟩

/-- The C3 scenario: goal 2000 met on effective days 100, 101 and 102, and
missed (500 of 2000) on day 103. -/
def logsC3 : List LogEntry :=
  [mkLog 100 9 0 2000, mkLog 101 9 0 2000, mkLog 102 9 0 2000,
   mkLog 103 9 0 500]

/-- The C6 scenario: one well-formed entry, one entry with a parseable
timestamp but a non-numeric `amount`, one entry whose timestamp fails to
parse. -/
def logsC6 : List LogEntry :=
  [⟨some ⟨100, 9, 0⟩, Amt.num 1000⟩, ⟨some ⟨100, 10, 0⟩, Amt.bad⟩,
   ⟨none, Amt.num 500⟩]

/-- The well-formed entries of `logsC6`. -/
def wfC6 : List LogEntry :=
  [⟨some ⟨100, 9, 0⟩, Amt.num 1000⟩]

/-- A well-formed day of logs for the segment-totals witness: one entry in
each clock segment of effective day 100. -/
def logsC7 : List LogEntry :=
  [mkLog 100 9 0 300, mkLog 100 13 0 400, mkLog 100 18 0 500]

/-- The single shopping item of the C1 example. -/
def itemC1 : Item :=
  ⟨"item", "2 kg", "General", 10, 20, false⟩

/-- The single shopping item of the C4 example. -/
def chickenItem : Item :=
  ⟨"chicken", "1kg", "General", 0, 0, false⟩

/-- The C4 example suggestion. -/
def proteinSugg : Sugg :=
  ⟨"Chicken", "Protein", 200, 250⟩

/-! Helper lemmas, shared by the claim theorems. -/

lemma leadEq_length {n h : List Char} (hl : leadEq n h = true) :
    n.length ≤ h.length := by
  induction n generalizing h with
  | nil => simp
  | cons a as ih =>
    cases h with
    | nil => simp [leadEq] at hl
    | cons b bs =>
      simp only [leadEq, Bool.and_eq_true] at hl
      simpa using ih hl.2

lemma subAux_length {n h : List Char} (hs : subAux n h = true) :
    n.length ≤ h.length := by
  induction h with
  | nil =>
    simp only [subAux, List.isEmpty_iff] at hs
    simp [hs]
  | cons c t ih =>
    simp only [subAux, Bool.or_eq_true] at hs
    rcases hs with hs | hs
    · exact leadEq_length hs
    · exact le_trans (ih hs) (by simp)

lemma pySum_go (amts : List Amt) (s : ℚ)
    (h : ∀ a ∈ amts, isNum a = true) :
    amts.foldl
      (fun acc a =>
        match acc, a with
        | some t, Amt.num q => some (t + q)
        | _, _ => none)
      (some s) = some (s + (amts.map safe_float).sum) := by
  induction amts generalizing s with
  | nil => simp
  | cons a as ih =>
    have ha : isNum a = true := h a (by simp)
    cases a with
    | num q =>
      simp only [List.foldl_cons, List.map_cons, List.sum_cons]
      rw [ih (s + q) fun b hb => h b (by simp [hb])]
      simp only [safe_float, Option.some.injEq]
      ring
    | numStr q => simp [isNum] at ha
    | bad => simp [isNum] at ha

lemma pySum_allNum (amts : List Amt) (h : ∀ a ∈ amts, isNum a = true) :
    pySum amts = some ((amts.map safe_float).sum) := by
  unfold pySum
  rw [pySum_go amts 0 h]
  simp

lemma seg_partition (L : List LogEntry) :
    sfSum (L.filter fun l => entryHour l < 12) +
      sfSum (L.filter fun l => 12 ≤ entryHour l ∧ entryHour l < 17) +
      sfSum (L.filter fun l => 17 ≤ entryHour l) = sfSum L := by
  induction L with
  | nil => simp [sfSum]
  | cons l ls ih =>
    rcases Nat.lt_or_ge (entryHour l) 12 with h1 | h1
    · have c2 : ¬(12 ≤ entryHour l) := by omega
      have c3 : ¬(17 ≤ entryHour l) := by omega
      simp [List.filter_cons, h1, c2, c3, sfSum] at ih ⊢
      linarith [ih]
    · rcases Nat.lt_or_ge (entryHour l) 17 with h2 | h2
      · have c1 : ¬(entryHour l < 12) := by omega
        have c3 : ¬(17 ≤ entryHour l) := by omega
        simp [List.filter_cons, c1, h1, h2, c3, sfSum] at ih ⊢
        linarith [ih]
      · have c1 : ¬(entryHour l < 12) := by omega
        have c2 : ¬(entryHour l < 17) := by omega
        simp [List.filter_cons, c1, c2, h2, sfSum] at ih ⊢
        linarith [ih]

lemma matchB_applySugg (x : Item) (u v : Sugg) :
    matchB (applySugg x u) v = matchB x v := by
  unfold applySugg
  split <;> rfl

lemma merge_fold_fst (suggs : List Sugg) :
    ∀ (items : List Item) (c : Nat),
      (suggs.foldl mergeStep (items, c)).1 =
        items.map fun x => suggs.foldl applySugg x := by
  induction suggs with
  | nil => intro items c; simp
  | cons u us ih =>
    intro items c
    simp only [List.foldl_cons, mergeStep]
    rw [ih]
    simp [List.map_map, Function.comp]

lemma merge_fold_snd (suggs : List Sugg) :
    ∀ (items : List Item) (c : Nat),
      (suggs.foldl mergeStep (items, c)).2 =
        c + (suggs.map fun u => (items.filter fun x => matchB x u).length).sum := by
  induction suggs with
  | nil => intro items c; simp
  | cons u us ih =>
    intro items c
    simp only [List.foldl_cons, mergeStep, List.map_cons, List.sum_cons]
    rw [ih]
    have hlen : ∀ v : Sugg,
        ((items.map fun x => applySugg x u).filter fun x => matchB x v).length =
          (items.filter fun x => matchB x v).length := by
      intro v
      rw [← List.countP_eq_length_filter, ← List.countP_eq_length_filter,
        List.countP_map]
      exact List.countP_congr fun x _ => by
        simp [Function.comp, matchB_applySugg]
    have hmap : (us.map fun v =>
          ((items.map fun x => applySugg x u).filter fun x => matchB x v).length) =
        us.map fun v => (items.filter fun x => matchB x v).length :=
      List.map_congr_left fun v _ => hlen v
    rw [hmap]
    ring

lemma filter_user_frame {α : Type} (f : α → String) (l : List α)
    (u v : String) (hv : v ≠ u) :
    ((l.filter fun r => f r != u).filter fun r => f r == v) =
      l.filter fun r => f r == v := by
  induction l with
  | nil => rfl
  | cons r rs ih =>
    by_cases h : f r = v
    · have hne : f r ≠ u := by rw [h]; exact hv
      simp [List.filter_cons, h, hne, hv, Ne.symm hv, ih]
    · by_cases h2 : f r = u <;>
        simp [List.filter_cons, h, h2, hv, Ne.symm hv, ih]

/-! Claim theorems. -/

/-- C5: for every timestamp `T` and day-start hour `H`, `get_effective_date`
returns the calendar date of `T` when `hour(T) ≥ H` and the previous day
otherwise; with `H = 0` it never rolls back a day, and with `H = 23` it rolls
back for exactly the hours other than 23 (hours are < 24).  As a Lean
function of its two arguments it is pure by construction. -/
theorem effective_date_c5 (t : DT) (H : Nat) :
    (H ≤ t.hour → get_effective_date t H = t.day) ∧
    (t.hour < H → get_effective_date t H = t.day - 1) ∧
    get_effective_date t 0 = t.day ∧
    (t.hour < 24 → (get_effective_date t 23 = t.day - 1 ↔ t.hour ≠ 23)) := by
  refine ⟨fun h => ?_, fun h => ?_, ?_, fun h24 => ?_⟩
  · simp [get_effective_date, Nat.not_lt.mpr h]
  · simp [get_effective_date, h]
  · simp [get_effective_date]
  · unfold get_effective_date
    constructor
    · intro he
      by_contra hc
      rw [hc] at he
      simp at he
      omega
    · intro hne
      have hlt : t.hour < 23 := by omega
      simp [hlt]

/-- Witness for C5 at concrete inputs: hour 5 with start hour 7 rolls back to
day 99, hour 8 with start hour 7 stays on day 100, and with start hour 23 an
hour of 22 rolls back. -/
theorem effective_date_c5_witness :
    get_effective_date ⟨100, 5, 0⟩ 7 = 99 ∧
    get_effective_date ⟨100, 8, 0⟩ 7 = 100 ∧
    get_effective_date ⟨100, 22, 0⟩ 23 = 99 := by
  refine ⟨?_, ?_, ?_⟩
  · have h := (effective_date_c5 ⟨100, 5, 0⟩ 7).2.1 (by norm_num)
    simpa using h
  · have h := (effective_date_c5 ⟨100, 8, 0⟩ 7).1 (by norm_num)
    simpa using h
  · have h := ((effective_date_c5 ⟨100, 22, 0⟩ 23).2.2.2 (by norm_num)).mpr
      (by norm_num)
    simpa using h

/-- C3: `calculate_streak` on an empty log is 0 for every goal, start hour
and current time; and on `logsC3` (goal 2000 met on effective days 100-102,
missed on day 103) it returns 3 when the current time lies on day 103 (the
first day after the 3-day streak broke off) and 0 when the current time lies
on day 104, matching the walk backward from the day before the current
effective day plus 1 only if the in-progress day already met goal. -/
theorem streak_c3 :
    (∀ (goal : ℚ) (start_hour : Nat) (now : DT),
      calculate_streak [] goal start_hour now = 0) ∧
    calculate_streak logsC3 2000 0 ⟨103, 12, 0⟩ = 3 ∧
    calculate_streak logsC3 2000 0 ⟨104, 12, 0⟩ = 0 := by
  refine ⟨fun goal start_hour now => by simp [calculate_streak], ?_, ?_⟩ <;>
    norm_num [calculate_streak, logsC3, mkLog, dailyTotal, get_effective_date,
      safe_float, walkBack, List.filterMap_cons, List.foldl_cons,
      List.foldl_nil]

/-- C1 counterexample: on the single unbought item with prices 10 and 20 and
quantity string "2 kg", the source's `est_total` returns 15, not the claimed
30 — the parsed quantity magnitude (which `safe_parse_qty` would indeed
report as 2) is never multiplied in. -/
theorem est_total_c1_counterexample :
    safe_parse_qty "2 kg" = 2 ∧
    est_total [itemC1] = 15 ∧ est_total [itemC1] ≠ 30 := by
  refine ⟨by decide, ?_, ?_⟩ <;>
    norm_num [est_total, itemC1, List.filter_cons]

/-- C1 amended: `est_total` sums `(priceMin + priceMax) / 2` over unbought
items only, ignoring the quantity string entirely (replacing the quantity of
an item never changes the total, and appending an item adds exactly its
mid-price when unbought and nothing when bought); on the single example item
it returns 15. -/
theorem est_total_c1_amended :
    est_total [itemC1] = 15 ∧
    (∀ (x : Item) (q : String), est_total [{ x with qty := q }] = est_total [x]) ∧
    (∀ (l : List Item) (x : Item),
      est_total (l ++ [x]) =
        est_total l + if x.bought then 0 else (x.price_min + x.price_max) / 2) := by
  refine ⟨?_, fun x q => ?_, fun l x => ?_⟩
  · norm_num [est_total, itemC1, List.filter_cons]
  · cases hb : x.bought <;> simp [est_total, List.filter_cons, hb]
  · cases hb : x.bought <;>
      simp [est_total, List.filter_append, List.filter_cons, hb]

/-- C2 (code bug): for every prior log, chip amount and current time, the
Quick Log handler evaluates the module-level name `today_str`, which is never
defined in the file, so it raises `NameError` and appends nothing — no
`HydrationLogEntry` is ever recorded by this handler. -/
theorem quick_log_c2 (logs : List RawLog) (val : ℚ) (now : DT) :
    quickLogHandler logs val now =
      Except.error "NameError: today_str is not defined" := rfl

/-- C9: on the example recipe markdown the extraction returns exactly
["Chicken", "Rice"]; a bullet after the next section marker is not captured
(the scan stops there), and a bullet line that strips to nothing is
discarded. -/
theorem extract_ingredients_c9 :
    extractIngredients
        "# Dish\n## Ingredients\n* Chicken\n* Rice\n## Instructions\n1. Cook" =
      ["Chicken", "Rice"] ∧
    extractIngredients
        "# Dish\n## Ingredients\n* Chicken\n* Rice\n## Instructions\n* Fake" =
      ["Chicken", "Rice"] ∧
    extractIngredients "## Ingredients\n* Chicken\n* \n- Rice\n## Done" =
      ["Chicken", "Rice"] := by
  refine ⟨by decide, by decide, by decide⟩

/-- C4 counterexample: with one item "chicken" and two suggestions whose
names both contain it ("chicken curry", "chicken masala"), the merge loop
reports a count of 2 although only 1 item was updated — the returned value
counts (suggestion, item) matching pairs, not updated items. -/
theorem merge_count_c4_counterexample :
    (mergeSuggestions [chickenItem]
        [⟨"chicken curry", "Protein", 100, 120⟩,
         ⟨"chicken masala", "Veg", 50, 60⟩]).2 = 2 ∧
    ((mergeSuggestions [chickenItem]
        [⟨"chicken curry", "Protein", 100, 120⟩,
         ⟨"chicken masala", "Veg", 50, 60⟩]).1.zip [chickenItem]).countP
      (fun p => decide (p.1 ≠ p.2)) = 1 :=
  ⟨by decide, by decide⟩

/-- C4 amended: the example merge updates "chicken" to category "Protein"
and prices 200/250 and returns 1; in general every item is mapped through
every suggestion in order (so every matching item is updated, with a single
suggestion exactly the matching items are overwritten), and the returned
count is the number of (suggestion, item) matching pairs — an item matched
by several suggestions is counted once per suggestion. -/
theorem merge_c4_amended :
    mergeSuggestions [chickenItem] [proteinSugg] =
      ([⟨"chicken", "1kg", "Protein", 200, 250, false⟩], 1) ∧
    (∀ (items : List Item) (suggs : List Sugg),
      (mergeSuggestions items suggs).1 =
        items.map fun x => suggs.foldl applySugg x) ∧
    (∀ (items : List Item) (u : Sugg),
      (mergeSuggestions items [u]).1 =
        items.map fun x => if matchB x u then overwrite x u else x) ∧
    (∀ (items : List Item) (suggs : List Sugg),
      (mergeSuggestions items suggs).2 =
        (suggs.map fun u => (items.filter fun x => matchB x u).length).sum) := by
  refine ⟨by decide, fun items suggs => merge_fold_fst suggs items 0,
    fun items u => ?_, fun items suggs => ?_⟩
  · rfl
  · have h := merge_fold_snd suggs items 0
    simpa using h

/-- C6 (code bug): on `logsC6` — a well-formed 1000ml entry, an entry with a
good timestamp but a non-numeric amount, and an entry with an unparsable
timestamp — the streak and daily-total computations skip or zero out the
malformed entries and agree with the same computations on the well-formed
sublist `wfC6`; but the morning segment sum, which adds the raw `amount`
values, raises `TypeError` (modelled as `none`) instead of skipping, while
on the well-formed sublist it returns 1000. -/
theorem segment_raise_c6 :
    calculate_streak logsC6 1000 0 ⟨100, 12, 0⟩ = 1 ∧
    calculate_streak wfC6 1000 0 ⟨100, 12, 0⟩ = 1 ∧
    totalToday logsC6 0 ⟨100, 12, 0⟩ = 1000 ∧
    totalToday wfC6 0 ⟨100, 12, 0⟩ = 1000 ∧
    mornSum logsC6 0 ⟨100, 12, 0⟩ = none ∧
    mornSum wfC6 0 ⟨100, 12, 0⟩ = some 1000 := by
  refine ⟨?_, ?_, ?_, ?_, ?_, ?_⟩ <;>
    norm_num [calculate_streak, totalToday, mornSum, pySum, currentCycleLogs,
      logsC6, wfC6, dailyTotal, get_effective_date, safe_float, entryHour,
      walkBack, List.filterMap_cons, List.foldl_cons, List.foldl_nil,
      List.filter_cons]

/-- C7: on a cycle whose entries all carry numeric amounts and in-range
hours, the three segment sums succeed and equal the sums over the three
clock-hour buckets [0,12), [12,17), [17,24); the three bucket sums add up to
the total over the whole logical day, and every entry of the logical day
falls in exactly one bucket. -/
theorem segment_totals_c7 (logs : List LogEntry) (start_hour : Nat) (now : DT)
    (hnum : ∀ l ∈ currentCycleLogs logs start_hour now, isNum l.amount = true)
    (h24 : ∀ l ∈ currentCycleLogs logs start_hour now, entryHour l < 24) :
    mornSum logs start_hour now =
      some (sfSum ((currentCycleLogs logs start_hour now).filter
        fun l => entryHour l < 12)) ∧
    aftSum logs start_hour now =
      some (sfSum ((currentCycleLogs logs start_hour now).filter
        fun l => 12 ≤ entryHour l ∧ entryHour l < 17)) ∧
    eveSum logs start_hour now =
      some (sfSum ((currentCycleLogs logs start_hour now).filter
        fun l => 17 ≤ entryHour l ∧ entryHour l < 24)) ∧
    sfSum ((currentCycleLogs logs start_hour now).filter
        fun l => entryHour l < 12) +
      sfSum ((currentCycleLogs logs start_hour now).filter
        fun l => 12 ≤ entryHour l ∧ entryHour l < 17) +
      sfSum ((currentCycleLogs logs start_hour now).filter
        fun l => 17 ≤ entryHour l ∧ entryHour l < 24) =
      sfSum (currentCycleLogs logs start_hour now) ∧
    ∀ l ∈ currentCycleLogs logs start_hour now,
      bucketCount (entryHour l) = 1 := by
  have hfe : ((currentCycleLogs logs start_hour now).filter
        fun l => 17 ≤ entryHour l) =
      (currentCycleLogs logs start_hour now).filter
        fun l => 17 ≤ entryHour l ∧ entryHour l < 24 :=
    List.filter_congr fun l hl =>
      decide_eq_decide.mpr ⟨fun h17 => ⟨h17, h24 l hl⟩, And.left⟩
  have hsub : ∀ (p : LogEntry → Bool)
      (a : Amt),
      a ∈ ((currentCycleLogs logs start_hour now).filter p).map
        LogEntry.amount → isNum a = true := by
    intro p a ha
    rcases List.mem_map.mp ha with ⟨l, hl, rfl⟩
    exact hnum l (List.mem_of_mem_filter hl)
  refine ⟨?_, ?_, ?_, ?_, ?_⟩
  · unfold mornSum
    rw [pySum_allNum _ (hsub _)]
    simp [sfSum, List.map_map, Function.comp_def]
  · unfold aftSum
    rw [pySum_allNum _ (hsub _)]
    simp [sfSum, List.map_map, Function.comp_def]
  · unfold eveSum
    rw [← hfe, pySum_allNum _ (hsub _)]
    simp [sfSum, List.map_map, Function.comp_def]
  · rw [← hfe]
    exact seg_partition _
  · intro l hl
    have h := h24 l hl
    unfold bucketCount
    split_ifs <;> omega

/-- Witness for C7: one entry in each segment of effective day 100 gives
morning 300, afternoon 400, evening 500. -/
theorem segment_totals_c7_witness :
    mornSum logsC7 0 ⟨100, 20, 0⟩ = some 300 ∧
    aftSum logsC7 0 ⟨100, 20, 0⟩ = some 400 ∧
    eveSum logsC7 0 ⟨100, 20, 0⟩ = some 500 := by
  have h := segment_totals_c7 logsC7 0 ⟨100, 20, 0⟩ (by decide) (by decide)
  refine ⟨?_, ?_, ?_⟩
  · rw [h.1]
    norm_num [sfSum, currentCycleLogs, logsC7, mkLog, get_effective_date,
      entryHour, safe_float, List.filter_cons]
  · rw [h.2.1]
    norm_num [sfSum, currentCycleLogs, logsC7, mkLog, get_effective_date,
      entryHour, safe_float, List.filter_cons]
  · rw [h.2.2.1]
    norm_num [sfSum, currentCycleLogs, logsC7, mkLog, get_effective_date,
      entryHour, safe_float, List.filter_cons]

/-- C8: a save of one user's record rebuilds the table as every row of a
different username, in order, followed by the saver's new rows (for the
hydration/cheats key-value sheets and for the shopping sheet alike); hence
the rows of every other username are exactly preserved. -/
theorem save_partition_c8 (tbl : List KVRow) (stbl : List ShopRow)
    (u cfg : String) (nd : List Item) (v : String) (hv : v ≠ u) :
    saveConfigRows tbl u cfg =
      (tbl.filter fun r => r.username != u) ++ [⟨u, cfg⟩] ∧
    saveShopping stbl u nd =
      (stbl.filter fun r => r.username != u) ++
        (nd.map fun x =>
          ⟨u, x.item, x.qty, x.category, x.price_min, x.price_max,
            x.bought⟩) ∧
    ((saveConfigRows tbl u cfg).filter fun r => r.username == v) =
      tbl.filter (fun r => r.username == v) ∧
    ((saveShopping stbl u nd).filter fun r => r.username == v) =
      stbl.filter (fun r => r.username == v) := by
  refine ⟨rfl, rfl, ?_, ?_⟩
  · unfold saveConfigRows
    rw [List.filter_append]
    have h2 : (([⟨u, cfg⟩] : List KVRow).filter fun r => r.username == v) =
        [] := by
      simp [Ne.symm hv]
    rw [h2, List.append_nil]
    exact filter_user_frame KVRow.username tbl u v hv
  · unfold saveShopping
    rw [List.filter_append]
    have h2 : ((nd.map fun x =>
          (⟨u, x.item, x.qty, x.category, x.price_min, x.price_max,
            x.bought⟩ : ShopRow)).filter fun r => r.username == v) = [] := by
      induction nd with
      | nil => rfl
      | cons x xs ih => simp [List.filter_cons, Ne.symm hv, ih]
    rw [h2, List.append_nil]
    exact filter_user_frame ShopRow.username stbl u v hv

/-- Witness for C8: alice saving over a two-user table leaves bob's rows
untouched in both sheet shapes. -/
theorem save_partition_c8_witness :
    ((saveConfigRows [⟨"bob", "b1"⟩, ⟨"alice", "a1"⟩] "alice" "a2").filter
      fun r => r.username == "bob") = [⟨"bob", "b1"⟩] ∧
    ((saveShopping [⟨"bob", "rice", "1kg", "Grain", 10, 20, false⟩]
        "alice" [⟨"milk", "1L", "Dairy", 25, 30, false⟩]).filter
      fun r => r.username == "bob") =
      [⟨"bob", "rice", "1kg", "Grain", 10, 20, false⟩] := by
  have h := save_partition_c8 [⟨"bob", "b1"⟩, ⟨"alice", "a1"⟩]
    [⟨"bob", "rice", "1kg", "Grain", 10, 20, false⟩] "alice" "a2"
    [⟨"milk", "1L", "Dairy", 25, 30, false⟩] "bob" (by decide)
  exact ⟨h.2.2.1.trans (by decide), h.2.2.2.trans (by decide)⟩

/-- C10: a suggestion changes an item only when the item's lowercased name
occurs inside the suggestion's lowercased name, and whenever that holds the
item's category and prices are overwritten with the suggestion's; the bought
flag never changes and has no influence on matching; and a suggestion whose
lowercased name is strictly shorter than the item's (in particular a proper
substring of it — the reverse containment) never matches. -/
theorem merge_match_c10 (x : Item) (u : Sugg) :
    (applySugg x u ≠ x → matchB x u = true) ∧
    (matchB x u = true → applySugg x u = overwrite x u) ∧
    (applySugg x u).bought = x.bought ∧
    (∀ b : Bool, matchB { x with bought := b } u = matchB x u) ∧
    ((lowerStr u.item).toList.length < (lowerStr x.item).toList.length →
      matchB x u = false) := by
  refine ⟨?_, ?_, ?_, fun b => rfl, ?_⟩
  · intro hne
    cases hm : matchB x u
    · exact absurd (by simp [applySugg, hm]) hne
    · rfl
  · intro hm
    simp [applySugg, hm]
  · unfold applySugg
    split
    · rfl
    · rfl
  · intro hlen
    cases hm : matchB x u
    · rfl
    · exfalso
      have hle := subAux_length (n := (lowerStr x.item).toList)
        (h := (lowerStr u.item).toList) hm
      omega

/-- Witness for C10: the "chicken" item matches and is overwritten by the
"Chicken" suggestion, while the strictly shorter suggestion name "chicken"
does not match the item "chicken breast". -/
theorem merge_match_c10_witness :
    applySugg chickenItem proteinSugg = overwrite chickenItem proteinSugg ∧
    matchB ⟨"chicken breast", "1kg", "General", 0, 0, false⟩
      ⟨"chicken", "Protein", 200, 250⟩ = false ∧
    matchB chickenItem proteinSugg = true := by
  refine ⟨(merge_match_c10 chickenItem proteinSugg).2.1 (by decide),
    (merge_match_c10 ⟨"chicken breast", "1kg", "General", 0, 0, false⟩
      ⟨"chicken", "Protein", 200, 250⟩).2.2.2.2 (by decide), ?_⟩
  exact (merge_match_c10 chickenItem proteinSugg).1 (by decide)

end FitChef
